import Mathlib

/-!
Shallow embedding of `src/app.py` (HuggingFace-space → Gofile transfer
pipeline).  Network I/O is modelled by outcome oracles: each HTTP call the
Python code makes is represented by a value describing what the remote side
did (an exception, or a status plus a decoded body).  The Python functions
become total Lean functions of the program state and these oracles.  JSON
dictionary access with `.get` defaults is modelled with `Option` fields.
-/

/-- `os.path.basename`: the part of the path after the last `/`.
(Python's `basename` on POSIX splits on the final slash, so a trailing
slash yields the empty string; this definition agrees.) -/
def basename (p : String) : String :=
  String.mk ((p.toList.reverse.takeWhile (fun c => c ≠ '/')).reverse)

/-- Python `str.endswith`: Boolean suffix test, via the character lists. -/
def strEndsWith (s suffix : String) : Bool :=
  suffix.toList.isSuffixOf s.toList

/-- `SOURCE_SPACE` constant of `app.py`. -/
def SOURCE_SPACE : String := "littletest/Why"

/-- `TEMP_DOWNLOAD_DIR` constant of `app.py`. -/
def TEMP_DOWNLOAD_DIR : String := "./temp_downloads"

/-- `TIMEOUT_BETWEEN_UPLOADS` constant of `app.py` (seconds). -/
def TIMEOUT_BETWEEN_UPLOADS : Nat := 5

/-- One entry of the `siblings` array of the Hugging Face space-metadata
response; `get_file_list` reads its `rfilename` field. -/
structure Sibling where
  rfilename : String
deriving DecidableEq, Repr

/-- The decoded JSON body of the listing response: `data['siblings']`. -/
structure ListingData where
  siblings : List Sibling
deriving DecidableEq, Repr

/-- What `requests.get` on the listing URL did: either it raised
(network error), or it returned a response with a status code and a body.
The body is `Except Unit ListingData`: `.error` covers `response.json()`
raising, a missing `siblings` key, or a sibling missing `rfilename` —
every way the `try` block can raise after a response arrived. -/
inductive ListingOutcome where
  | exc : ListingOutcome
  | resp (status : Nat) (body : Except Unit ListingData) : ListingOutcome
deriving Repr

/-- `get_file_list` of `app.py`: on HTTP 200 with a well-formed body,
the `rfilename` of every sibling not ending in `.gitattributes`, in
source order; on any other status or any exception, `[]`.  Totality of
this function is the embedding of "never raises to the caller". -/
def get_file_list : ListingOutcome → List String
  | .exc => []
  | .resp status body =>
    if status = 200 then
      match body with
      | .ok data =>
        ((data.siblings.filter
            (fun f => !(strEndsWith f.rfilename ".gitattributes"))).map
          Sibling.rfilename)
      | .error _ => []
    else []

/-- One entry of the Gofile `servers` array.  `name` and `score` are
`Option`s because the Python reads them with `.get`; a missing `score`
defaults to `0` and a missing `name` is falsy.  Scores are modelled as
integers. -/
structure Server where
  name : Option String
  score : Option Int
deriving DecidableEq, Repr

/-- The key `lambda x: x.get('score', 0)` used by `get_best_server`. -/
def serverKey (s : Server) : Int := s.score.getD 0

/-- CPython `max(iterable, key=key)`: fold over the list keeping the
current best, replacing it only on a strictly greater key — so the first
element attaining the maximum wins ties.  `none` on the empty list
(Python would raise `ValueError`; the caller guards with `if servers:`). -/
def pyMax {α : Type} (key : α → Int) : List α → Option α
  | [] => none
  | x :: xs => some (xs.foldl (fun b a => if key b < key a then a else b) x)

/-- What `requests.get('https://api.gofile.io/servers')` plus decoding did:
`.exc` covers a network error, a non-2xx status (`raise_for_status`), or
`response.json()` raising; `.resp` carries `result.get('status')` and
`result.get('data', {}).get('servers', [])` (a malformed `data` yields the
default `[]`). -/
inductive ServersOutcome where
  | exc : ServersOutcome
  | resp (status : Option String) (servers : List Server) : ServersOutcome
deriving DecidableEq, Repr

/-- `get_best_server` of `app.py`: on `status == 'ok'` with a nonempty
server list, take the candidate `max` selects; if its `name` is truthy
(present and nonempty) return it, otherwise fall through to `"store1"`.
Every failure path returns `"store1"`. -/
def get_best_server : ServersOutcome → String
  | .exc => "store1"
  | .resp status servers =>
    if status = some "ok" then
      match pyMax serverKey servers with
      | some best =>
        match best.name with
        | some n => if n = "" then "store1" else n
        | none => "store1"
      | none => "store1"
    else "store1"

/-- One record appended to `successful_uploads` on a successful upload,
with the field names and defaults of `upload_info` in `upload_to_gofile`:
`file` is `os.path.basename(file_path)`, `folder_id` is
`data.get('parentFolder')` (may be `None`), `download_page` and
`guest_token` default to `'No disponible'` when absent. -/
structure UploadRecord where
  file : String
  folder_id : Option String
  download_page : String
  guest_token : String
deriving DecidableEq, Repr

/-- The decoded `data` object of the Gofile upload response; every field is
read with `.get`, so every field is optional (a missing `data` key behaves
like the record with all fields `none`, matching `.get('data', {})`). -/
structure UploadData where
  parentFolder : Option String
  downloadPage : Option String
  guestToken : Option String
deriving DecidableEq, Repr

/-- What the upload POST plus decoding did: `.exc` covers a network error,
a non-2xx status (`raise_for_status`), `response.json()` raising, or the
earlier `open(local_path)` raising; `.resp` carries `result.get('status')`
and the decoded `data` object. -/
inductive UploadOutcome where
  | exc : UploadOutcome
  | resp (status : Option String) (data : UploadData) : UploadOutcome
deriving DecidableEq, Repr

/-- The mutable state of the process that the claims are about:
`successful_uploads` is the in-memory ledger (the module-level list),
`uploads_info_file` is the persisted `uploads_info.json`, modelled at the
value level (`some l` means the file holds the JSON serialization of `l`;
`none` means it was never written), and `temp_files` is the set of paths
currently present in the local temp directory. -/
structure SysState where
  successful_uploads : List UploadRecord
  uploads_info_file : Option (List UploadRecord)
  temp_files : List String
deriving DecidableEq, Repr

/-- The state at process start: empty ledger, no persisted file, empty
temp directory. -/
def init_state : SysState := ⟨[], none, []⟩

/-- `upload_to_gofile` of `app.py`: on `result.get('status') == 'ok'`,
build `upload_info`, append it to `successful_uploads`, overwrite
`uploads_info.json` with the whole ledger, and return `True`; on any other
status or any exception return `False` with the state unchanged.  The
write of `uploads_info.json` is modelled as succeeding (local-disk I/O
failure is outside the oracle).  Returns `(success, new state)`. -/
def upload_to_gofile (st : SysState) (_local_path file_path : String)
    (o : UploadOutcome) : Bool × SysState :=
  match o with
  | .exc => (false, st)
  | .resp status data =>
    if status = some "ok" then
      let upload_info : UploadRecord :=
        { file := basename file_path
          folder_id := data.parentFolder
          download_page := data.downloadPage.getD "No disponible"
          guest_token := data.guestToken.getD "No disponible" }
      let ledger := st.successful_uploads ++ [upload_info]
      (true, { st with successful_uploads := ledger
                       uploads_info_file := some ledger })
    else (false, st)

/-- `cleanup` of `app.py`: `os.remove(local_path)`, with `OSError` (e.g.
file absent) caught and logged — so on the state it is exactly "the path
is no longer present". -/
def cleanup (st : SysState) (local_path : String) : SysState :=
  { st with temp_files := st.temp_files.filter (fun p => p ≠ local_path) }

/-- The local path `download_file` writes to:
`os.path.join(TEMP_DOWNLOAD_DIR, os.path.basename(file_path))`. -/
def local_path_of (file_path : String) : String :=
  TEMP_DOWNLOAD_DIR ++ "/" ++ basename file_path

/-- `download_file` of `app.py`, with the network oracle reduced to a
success bit: on success the file exists at `local_path_of file_path` and
that path is returned; on any exception `None` is returned and the state
is unchanged. -/
def download_file (st : SysState) (file_path : String) (ok : Bool) :
    Option String × SysState :=
  if ok then
    (some (local_path_of file_path),
     { st with temp_files := st.temp_files.insert (local_path_of file_path) })
  else (none, st)

/-- The environment of one iteration of the `for` loop in `main`:
`.crash` is an exception raised in the loop body before any effect
(caught by the broad per-file `except`); `.run dlOk up` says the download
attempt had outcome `dlOk` and, when the download succeeded, the upload
POST had outcome `up`. -/
inductive FileEnv where
  | crash : FileEnv
  | run (dlOk : Bool) (up : UploadOutcome) : FileEnv

/-- `true` when the iteration's download succeeded (`local_path` truthy). -/
def dlSucceeded : FileEnv → Bool
  | .crash => false
  | .run dlOk _ => dlOk

/-- Observable events of a run of the orchestration loop: which files
entered the loop body, which had a download / an upload attempted, and the
(1-based) indices after which `time.sleep(TIMEOUT_BETWEEN_UPLOADS)` ran. -/
structure Trace where
  attempted : List String
  download_attempts : List String
  upload_attempts : List String
  sleeps : List Nat
deriving DecidableEq, Repr

/-- The result of one iteration of the loop body of `main` for file
`file_path` at (1-based) index `idx` of a list of `n` files: the new
state, whether a download was attempted, whether an upload was attempted,
and whether the fixed delay ran (`if index < len(file_list)`, inside
`if local_path:`). -/
def process_one (n idx : Nat) (st : SysState) (file_path : String)
    (e : FileEnv) : SysState × Bool × Bool × Bool :=
  match e with
  | .crash => (st, false, false, false)
  | .run dlOk up =>
    match download_file st file_path dlOk with
    | (some lp, st1) =>
      let r := upload_to_gofile st1 lp file_path up
      let st3 := if r.1 then cleanup r.2 lp else r.2
      (st3, true, true, decide (idx < n))
    | (none, st1) => (st1, true, false, false)

/-- The `for index, file_path in enumerate(file_list, 1)` loop of `main`:
process the files in order, threading the state and collecting the trace.
`n` is `len(file_list)` and `idx` the index of the head of the remaining
list. -/
def loop (n : Nat) (env : Nat → FileEnv) :
    SysState → Nat → List String → SysState × Trace
  | st, _, [] => (st, ⟨[], [], [], []⟩)
  | st, idx, f :: rest =>
    let o := process_one n idx st f (env idx)
    let r := loop n env o.1 (idx + 1) rest
    (r.1,
     ⟨f :: r.2.attempted,
      (if o.2.1 then [f] else []) ++ r.2.download_attempts,
      (if o.2.2.1 then [f] else []) ++ r.2.upload_attempts,
      (if o.2.2.2 then [idx] else []) ++ r.2.sleeps⟩)

/-- `main` of `app.py` (named `main_run` here since `main` is reserved in
Lean), from the listing call onward (the background web
server only reads the ledger): obtain the file list; `if not file_list:
return` — otherwise run the loop over every file starting at index 1 from
the initial state. -/
def main_run (listing : ListingOutcome) (env : Nat → FileEnv) :
    SysState × Trace :=
  let file_list := get_file_list listing
  if file_list.isEmpty then (init_state, ⟨[], [], [], []⟩)
  else loop file_list.length env init_state 1 file_list

/-! ### Helper lemmas -/

theorem map_rfilename_filter (p : String → Bool) (l : List Sibling) :
    (l.filter (fun f => p f.rfilename)).map Sibling.rfilename
      = (l.map Sibling.rfilename).filter p := by
  induction l with
  | nil => rfl
  | cons a t ih => cases h : p a.rfilename <;> simp [List.filter_cons, h, ih]

theorem length_filter_not_countP (p : Sibling → Bool) (l : List Sibling) :
    (l.filter (fun f => !(p f))).length = l.length - l.countP p := by
  induction l with
  | nil => rfl
  | cons a t ih =>
    have hle : t.countP p ≤ t.length := List.countP_le_length _
    cases h : p a
    · simp [List.filter_cons, List.countP_cons, h, ih]
      omega
    · simp [List.filter_cons, List.countP_cons, h, ih]

/-- Whether `upload_to_gofile` reports success is a function of the upload
outcome alone. -/
def upload_ok : UploadOutcome → Bool
  | .exc => false
  | .resp status _ => decide (status = some "ok")

theorem upload_to_gofile_fst (st : SysState) (lp fp : String)
    (o : UploadOutcome) : (upload_to_gofile st lp fp o).1 = upload_ok o := by
  cases o with
  | exc => rfl
  | resp status data =>
    by_cases hs : status = some "ok" <;> simp [upload_to_gofile, upload_ok, hs]

theorem upload_to_gofile_temp_files (st : SysState) (lp fp : String)
    (o : UploadOutcome) :
    (upload_to_gofile st lp fp o).2.temp_files = st.temp_files := by
  cases o with
  | exc => rfl
  | resp status data =>
    by_cases hs : status = some "ok" <;> simp [upload_to_gofile, hs]

/-! ### The claims -/

/-- C1 as stated is false: a successful upload appends a record whose
`file` field is `os.path.basename(file_path)`, not the original remote
file name.  For the remote name `"sub/a.txt"` the upload succeeds and the
ledger's single record carries `"a.txt"`, so no record has `file` equal to
the input name. -/
theorem C1_basename_counterexample :
    ((upload_to_gofile init_state (local_path_of "sub/a.txt") "sub/a.txt"
        (.resp (some "ok") ⟨some "f1", some "http://x/d1", some "t1"⟩)).1
      = true)
    ∧ ((upload_to_gofile init_state (local_path_of "sub/a.txt") "sub/a.txt"
        (.resp (some "ok") ⟨some "f1", some "http://x/d1", some "t1"⟩)).2.successful_uploads.map
          UploadRecord.file = ["a.txt"])
    ∧ ("a.txt" ≠ "sub/a.txt") := by decide

/-- C1 (amended): for every successful upload (the response has status
`"ok"`), the in-memory ledger's length increases by exactly 1, the
appended record's `file` field equals the **basename** of the original
remote file name passed to the Uploader, and the persisted ledger file's
content equals the serialization of the full in-memory ledger. -/
theorem C1_upload_appends_and_persists (st : SysState) (lp fp : String)
    (o : UploadOutcome) (h : (upload_to_gofile st lp fp o).1 = true) :
    (upload_to_gofile st lp fp o).2.successful_uploads.length
        = st.successful_uploads.length + 1 ∧
    ((upload_to_gofile st lp fp o).2.successful_uploads.getLast?.map
        UploadRecord.file = some (basename fp)) ∧
    (upload_to_gofile st lp fp o).2.uploads_info_file
        = some (upload_to_gofile st lp fp o).2.successful_uploads := by
  cases o with
  | exc => exact absurd h (by simp [upload_to_gofile])
  | resp status data =>
    by_cases hs : status = some "ok"
    · simp [upload_to_gofile, hs]
    · exact absurd h (by simp [upload_to_gofile, hs])

/-- Witness for C1: a concrete successful upload of remote name
`"sub/a.txt"` from an empty ledger. -/
theorem C1_upload_appends_and_persists_witness :
    (upload_to_gofile init_state "./temp_downloads/a.txt" "sub/a.txt"
        (.resp (some "ok") ⟨some "f1", some "p", some "t"⟩)).1 = true ∧
    ((upload_to_gofile init_state "./temp_downloads/a.txt" "sub/a.txt"
        (.resp (some "ok") ⟨some "f1", some "p", some "t"⟩)).2.successful_uploads.length
        = (init_state.successful_uploads.length) + 1 ∧
      ((upload_to_gofile init_state "./temp_downloads/a.txt" "sub/a.txt"
        (.resp (some "ok") ⟨some "f1", some "p", some "t"⟩)).2.successful_uploads.getLast?.map
          UploadRecord.file = some (basename "sub/a.txt")) ∧
      (upload_to_gofile init_state "./temp_downloads/a.txt" "sub/a.txt"
        (.resp (some "ok") ⟨some "f1", some "p", some "t"⟩)).2.uploads_info_file
        = some (upload_to_gofile init_state "./temp_downloads/a.txt" "sub/a.txt"
            (.resp (some "ok") ⟨some "f1", some "p", some "t"⟩)).2.successful_uploads) :=
  ⟨by decide, C1_upload_appends_and_persists init_state "./temp_downloads/a.txt"
      "sub/a.txt" (.resp (some "ok") ⟨some "f1", some "p", some "t"⟩) (by decide)⟩

/-- C2: for a file whose download succeeded, after the loop body the local
temp file exists if and only if the upload failed — a successful upload is
followed by cleanup which removes it, a failed upload leaves it in place. -/
theorem C2_temp_file_kept_iff_upload_failed (n idx : Nat) (st : SysState)
    (f : String) (up : UploadOutcome) :
    (local_path_of f ∈
        (process_one n idx st f (.run true up)).1.temp_files)
      ↔ upload_ok up = false := by
  have hfst := upload_to_gofile_fst
    { st with temp_files := st.temp_files.insert (local_path_of f) }
    (local_path_of f) f up
  have htmp := upload_to_gofile_temp_files
    { st with temp_files := st.temp_files.insert (local_path_of f) }
    (local_path_of f) f up
  simp only [process_one, download_file, if_pos trivial]
  cases h : upload_ok up with
  | false =>
    simp only [hfst, h, if_neg Bool.false_ne_true, htmp]
    simp [List.mem_insert_iff]
  | true =>
    simp only [hfst, h, if_pos rfl, cleanup, htmp]
    simp [List.mem_filter]

/-- C3: on an HTTP 200 listing response with a well-formed body, the
Lister returns exactly the sibling names not ending in `.gitattributes`,
in source order (the result is the order-preserving filter of the name
list), and its length is N − M where N is the number of siblings and M
the number whose name ends with the excluded suffix. -/
theorem C3_lister_filters_excluded_suffix (data : ListingData) :
    get_file_list (.resp 200 (.ok data)) =
      (data.siblings.map Sibling.rfilename).filter
        (fun n => !(strEndsWith n ".gitattributes")) ∧
    (get_file_list (.resp 200 (.ok data))).length =
      data.siblings.length -
        data.siblings.countP
          (fun f => strEndsWith f.rfilename ".gitattributes") := by
  constructor
  · simpa [get_file_list] using
      map_rfilename_filter
        (fun n => !(strEndsWith n ".gitattributes")) data.siblings
  · simpa [get_file_list] using
      length_filter_not_countP
        (fun f => strEndsWith f.rfilename ".gitattributes") data.siblings

/-- C4: on every non-200 listing response, and on every exception during
the request or during parsing, the Lister returns the empty list (the
embedding is a total function, so nothing propagates to the caller). -/
theorem C4_lister_failure_returns_empty (o : ListingOutcome)
    (h : o = .exc
      ∨ (∃ s b, o = .resp s b ∧ s ≠ 200)
      ∨ (∃ s, o = .resp s (.error ()))) :
    get_file_list o = [] := by
  rcases h with rfl | ⟨s, b, rfl, hs⟩ | ⟨s, rfl⟩
  · rfl
  · simp [get_file_list, hs]
  · by_cases hs : s = 200 <;> simp [get_file_list, hs]

/-- Witness for C4: a concrete 404 listing response with a well-formed
body yields the empty list. -/
theorem C4_lister_failure_returns_empty_witness :
    get_file_list (.resp 404 (.ok ⟨[⟨"a.txt"⟩]⟩)) = [] :=
  C4_lister_failure_returns_empty (.resp 404 (.ok ⟨[⟨"a.txt"⟩]⟩))
    (Or.inr (Or.inl ⟨404, .ok ⟨[⟨"a.txt"⟩]⟩, rfl, by decide⟩))

/-- Specification-side selection: the first element of the list attaining
the maximum key, by structural recursion (ties between the head and the
best of the tail go to the head). -/
def firstMaxRec {α : Type} (key : α → Int) : List α → Option α
  | [] => none
  | x :: xs =>
    match firstMaxRec key xs with
    | none => some x
    | some m => some (if key m ≤ key x then x else m)

theorem foldl_max_eq {α : Type} (key : α → Int) (x : α) (xs : List α) :
    xs.foldl (fun b a => if key b < key a then a else b) x =
      (match firstMaxRec key xs with
       | none => x
       | some m => if key m ≤ key x then x else m) := by
  induction xs generalizing x with
  | nil => rfl
  | cons a t ih =>
    rw [List.foldl_cons, ih]
    cases h : firstMaxRec key t with
    | none =>
      simp only [firstMaxRec, h]
      split_ifs <;> first | rfl | omega
    | some m =>
      simp only [firstMaxRec, h]
      split_ifs <;> first | rfl | omega

theorem pyMax_eq_firstMaxRec {α : Type} (key : α → Int) (l : List α) :
    pyMax key l = firstMaxRec key l := by
  cases l with
  | nil => rfl
  | cons x xs =>
    rw [pyMax, foldl_max_eq]
    cases h : firstMaxRec key xs <;> simp [firstMaxRec, h]

theorem firstMaxRec_mem {α : Type} (key : α → Int) (l : List α) (m : α)
    (h : firstMaxRec key l = some m) : m ∈ l := by
  induction l generalizing m with
  | nil => exact absurd h (by simp [firstMaxRec])
  | cons x xs ih =>
    cases hx : firstMaxRec key xs with
    | none =>
      simp only [firstMaxRec, hx, Option.some.injEq] at h
      simp [← h]
    | some mm =>
      simp only [firstMaxRec, hx, Option.some.injEq] at h
      by_cases hk : key mm ≤ key x
      · rw [if_pos hk] at h
        simp [← h]
      · rw [if_neg hk] at h
        exact List.mem_cons_of_mem x (h ▸ ih mm hx)

theorem firstMaxRec_of_split {α : Type} (key : α → Int) (pre post : List α)
    (m : α)
    (hmax : ∀ b ∈ pre ++ m :: post, key b ≤ key m)
    (hfirst : ∀ b ∈ pre, key b < key m) :
    firstMaxRec key (pre ++ m :: post) = some m := by
  induction pre with
  | nil =>
    simp only [List.nil_append]
    cases hp : firstMaxRec key post with
    | none => simp [firstMaxRec, hp]
    | some mm =>
      have hmm : mm ∈ post := firstMaxRec_mem key post mm hp
      have hle : key mm ≤ key m := hmax mm (by simp [hmm])
      simp [firstMaxRec, hp, hle]
  | cons a pre ih =>
    have ha : key a < key m := hfirst a (by simp)
    have ih' : firstMaxRec key (pre ++ m :: post) = some m := by
      refine ih (fun b hb => hmax b ?_) (fun b hb => hfirst b (by simp [hb]))
      simp only [List.cons_append, List.mem_cons]
      exact Or.inr hb
    simp only [List.cons_append, firstMaxRec, List.append_eq, ih']
    rw [if_neg (by omega)]

/-- C5: on a server-list response with status `"ok"`, the Selector returns
the name of the candidate with the maximum `score` (ties broken by the
first such candidate in the list — here: `best` preceded only by strictly
lower-scoring candidates), provided that candidate carries a nonempty
name.  The concrete instance of the claim is the witness below. -/
theorem C5_selector_picks_first_max (pre post : List Server) (best : Server)
    (nm : String)
    (hmax : ∀ b ∈ pre ++ best :: post, serverKey b ≤ serverKey best)
    (hfirst : ∀ b ∈ pre, serverKey b < serverKey best)
    (hname : best.name = some nm) (hnm : nm ≠ "") :
    get_best_server (.resp (some "ok") (pre ++ best :: post)) = nm := by
  have h1 : pyMax serverKey (pre ++ best :: post) = some best := by
    rw [pyMax_eq_firstMaxRec]
    exact firstMaxRec_of_split serverKey pre post best hmax hfirst
  simp [get_best_server, h1, hname, hnm]

/-- Witness for C5: the spec's concrete example
`[{name:"a",score:5},{name:"b",score:9}]` selects `"b"`. -/
theorem C5_selector_picks_first_max_witness :
    get_best_server (.resp (some "ok")
      [⟨some "a", some 5⟩, ⟨some "b", some 9⟩]) = "b" :=
  C5_selector_picks_first_max [⟨some "a", some 5⟩] [] ⟨some "b", some 9⟩ "b"
    (by decide) (by decide) rfl (by decide)

/-- C6: on every failed server-list query — an exception (network error,
non-2xx, parse failure), a status other than `"ok"`, or an empty server
list — the Selector returns the fallback `"store1"` (and, being total,
never raises). -/
theorem C6_selector_fallback (o : ServersOutcome)
    (h : o = .exc
      ∨ (∃ status servers, o = .resp status servers ∧
          (status ≠ some "ok" ∨ servers = []))) :
    get_best_server o = "store1" := by
  rcases h with rfl | ⟨status, servers, rfl, h | rfl⟩
  · rfl
  · simp [get_best_server, h]
  · by_cases hs : status = some "ok" <;> simp [get_best_server, hs, pyMax]

/-- Witness for C6: a network exception yields `"store1"`. -/
theorem C6_selector_fallback_witness :
    get_best_server .exc = "store1" :=
  C6_selector_fallback .exc (Or.inl rfl)

/-- Replace a missing `score` field by an explicit `0` — the default that
`x.get('score', 0)` supplies during comparison. -/
def fillScore (s : Server) : Server := { s with score := some (s.score.getD 0) }

theorem serverKey_fillScore (s : Server) :
    serverKey (fillScore s) = serverKey s := rfl

theorem foldl_step_map {α : Type} (key : α → Int) (f : α → α)
    (hf : ∀ a, key (f a) = key a) (x : α) (xs : List α) :
    (xs.map f).foldl (fun b a => if key b < key a then a else b) (f x) =
      f (xs.foldl (fun b a => if key b < key a then a else b) x) := by
  induction xs generalizing x with
  | nil => rfl
  | cons a t ih =>
    simp only [List.map_cons, List.foldl_cons, hf]
    by_cases h : key x < key a
    · simp [h, ih]
    · simp [h, ih]

theorem pyMax_map_fillScore (l : List Server) :
    pyMax serverKey (l.map fillScore) =
      (pyMax serverKey l).map fillScore := by
  cases l with
  | nil => rfl
  | cons x xs =>
    simp only [List.map_cons, pyMax]
    rw [foldl_step_map serverKey fillScore serverKey_fillScore]
    rfl

theorem get_best_server_fillScore (status : Option String)
    (servers : List Server) :
    get_best_server (.resp status (servers.map fillScore)) =
      get_best_server (.resp status servers) := by
  by_cases hs : status = some "ok"
  · simp only [get_best_server, hs, if_pos, pyMax_map_fillScore]
    cases pyMax serverKey servers with
    | none => rfl
    | some best => rfl
  · simp [get_best_server, hs]

/-- C9: even with status `"ok"` and a nonempty server list, if the
best-scoring candidate (first among ties) has no `name` or an empty
`name`, the Selector still returns `"store1"`; and candidates missing a
`score` field are compared as if their score were `0` — filling missing
scores with an explicit `0` does not change the Selector's answer. -/
theorem C9_falsy_name_fallback_and_default_scores
    (pre post : List Server) (best : Server) (status0 : Option String)
    (hmax : ∀ b ∈ pre ++ best :: post, serverKey b ≤ serverKey best)
    (hfirst : ∀ b ∈ pre, serverKey b < serverKey best)
    (hname : best.name = none ∨ best.name = some "") :
    get_best_server (.resp (some "ok") (pre ++ best :: post)) = "store1" ∧
    get_best_server (.resp status0 ((pre ++ best :: post).map fillScore)) =
      get_best_server (.resp status0 (pre ++ best :: post)) := by
  have h1 : pyMax serverKey (pre ++ best :: post) = some best := by
    rw [pyMax_eq_firstMaxRec]
    exact firstMaxRec_of_split serverKey pre post best hmax hfirst
  refine ⟨?_, get_best_server_fillScore status0 (pre ++ best :: post)⟩
  rcases hname with hname | hname <;> simp [get_best_server, h1, hname]

/-- Witness for C9: the best-scoring candidate has score 5 but no name
(missing `name` key), a lower-scoring candidate has no score (treated as
0), and the Selector answers `"store1"`; filling the missing score with 0
changes nothing. -/
theorem C9_falsy_name_fallback_and_default_scores_witness :
    get_best_server (.resp (some "ok")
      [⟨some "b", none⟩, ⟨none, some 5⟩]) = "store1" ∧
    get_best_server (.resp (some "ok")
      ([⟨some "b", none⟩, ⟨none, some 5⟩].map fillScore)) =
      get_best_server (.resp (some "ok")
        [⟨some "b", none⟩, ⟨none, some 5⟩]) :=
  C9_falsy_name_fallback_and_default_scores
    [⟨some "b", none⟩] [] ⟨none, some 5⟩ (some "ok")
    (by decide) (by decide) (Or.inl rfl)

theorem process_one_slept (n idx : Nat) (st : SysState) (f : String)
    (e : FileEnv) :
    (process_one n idx st f e).2.2.2 =
      (dlSucceeded e && decide (idx < n)) := by
  cases e with
  | crash => rfl
  | run dlOk up =>
    cases dlOk <;> simp [process_one, download_file, dlSucceeded]

theorem loop_attempted (n : Nat) (env : Nat → FileEnv) (st : SysState)
    (idx : Nat) (files : List String) :
    (loop n env st idx files).2.attempted = files := by
  induction files generalizing st idx with
  | nil => rfl
  | cons f rest ih => simp [loop, ih]

theorem loop_sleeps (n : Nat) (env : Nat → FileEnv) (st : SysState)
    (idx : Nat) (files : List String) :
    (loop n env st idx files).2.sleeps =
      (List.range' idx files.length).filter
        (fun i => dlSucceeded (env i) && decide (i < n)) := by
  induction files generalizing st idx with
  | nil => rfl
  | cons f rest ih =>
    simp only [loop, List.length_cons, List.range'_succ, List.filter_cons,
      process_one_slept, ih]
    cases h : (dlSucceeded (env idx) && decide (idx < n)) <;> simp [h]

/-- C7: the Orchestrator's loop attempts every listed file exactly once,
in order, for every environment — including environments in which a file's
loop-body iteration raises (`FileEnv.crash`, caught by the broad per-file
handler): no single file's failure aborts the batch, and the loop (being a
total function) terminates after the last listed file. -/
theorem C7_every_file_attempted_once (listing : ListingOutcome)
    (env : Nat → FileEnv) :
    (main_run listing env).2.attempted = get_file_list listing := by
  unfold main_run
  by_cases h : (get_file_list listing).isEmpty
  · rw [if_pos h]
    exact (List.isEmpty_iff.mp h).symm
  · rw [if_neg h]
    exact loop_attempted _ env init_state 1 _

/-- C8: the fixed `TIMEOUT_BETWEEN_UPLOADS` delay runs exactly after the
iterations whose download succeeded and whose 1-based index is strictly
below the number of listed files — in particular it never runs after the
final file (the index equal to the length is never in the sleep list). -/
theorem C8_delay_between_successful_iterations (listing : ListingOutcome)
    (env : Nat → FileEnv) :
    (main_run listing env).2.sleeps =
      (List.range' 1 (get_file_list listing).length).filter
        (fun i => dlSucceeded (env i) &&
          decide (i < (get_file_list listing).length)) ∧
    (get_file_list listing).length ∉ (main_run listing env).2.sleeps := by
  have hs : (main_run listing env).2.sleeps =
      (List.range' 1 (get_file_list listing).length).filter
        (fun i => dlSucceeded (env i) &&
          decide (i < (get_file_list listing).length)) := by
    unfold main_run
    by_cases h : (get_file_list listing).isEmpty
    · rw [if_pos h]
      rw [List.isEmpty_iff.mp h]
      rfl
    · rw [if_neg h]
      exact loop_sleeps _ env init_state 1 _
  refine ⟨hs, ?_⟩
  rw [hs]
  intro hmem
  have := List.of_mem_filter hmem
  simp at this

/-- C10: whenever the Lister returns the empty list — for instance for a
space whose only files end with the excluded suffix — `main` returns
before the loop: nothing is attempted, no download or upload happens, the
ledger stays empty and the ledger file is never written. -/
theorem C10_empty_listing_terminates_run (listing : ListingOutcome)
    (env : Nat → FileEnv) (h : get_file_list listing = []) :
    (main_run listing env).2.attempted = [] ∧
    (main_run listing env).2.download_attempts = [] ∧
    (main_run listing env).2.upload_attempts = [] ∧
    (main_run listing env).1.successful_uploads = [] ∧
    (main_run listing env).1.uploads_info_file = none := by
  simp [main_run, h, init_state]

/-- Witness for C10: a space containing only `.gitattributes` yields an
empty listing, and the run does nothing. -/
theorem C10_empty_listing_terminates_run_witness :
    get_file_list (.resp 200 (.ok ⟨[⟨".gitattributes"⟩]⟩)) = [] ∧
    (main_run (.resp 200 (.ok ⟨[⟨".gitattributes"⟩]⟩))
        (fun _ => FileEnv.crash)).2.attempted = [] ∧
    (main_run (.resp 200 (.ok ⟨[⟨".gitattributes"⟩]⟩))
        (fun _ => FileEnv.crash)).2.download_attempts = [] ∧
    (main_run (.resp 200 (.ok ⟨[⟨".gitattributes"⟩]⟩))
        (fun _ => FileEnv.crash)).2.upload_attempts = [] ∧
    (main_run (.resp 200 (.ok ⟨[⟨".gitattributes"⟩]⟩))
        (fun _ => FileEnv.crash)).1.successful_uploads = [] ∧
    (main_run (.resp 200 (.ok ⟨[⟨".gitattributes"⟩]⟩))
        (fun _ => FileEnv.crash)).1.uploads_info_file = none := by
  have h : get_file_list (.resp 200 (.ok ⟨[⟨".gitattributes"⟩]⟩)) = [] := by
    decide
  exact ⟨h, C10_empty_listing_terminates_run
    (.resp 200 (.ok ⟨[⟨".gitattributes"⟩]⟩)) (fun _ => FileEnv.crash) h⟩
